import Mathlib

/-!
Verification of the core emulation engine of hadron-gameboy-emulator.

The repository ships only the header surface (src/include/CPUZ80.h and
src/include/Screen.h); the bodies of the declared member functions live in
translation units that are absent from the source tree.  The definitions
below therefore fall into two groups:

* translated directly from the header: member initializers (register file,
  PEI/PDI/IME), the inline members LCD.reset, LCD.enabled, clock.reset and
  the counters struct;
* marked `Modelled from the spec:` in their doc comment: behaviour of a
  member function that is declared in the header but whose body is missing,
  modelled faithfully from the wording of the specification.

Machine bytes and words are `Nat`, reduced modulo 2^8 or 2^16 exactly where
the 8-bit or 16-bit hardware registers wrap.
-/

namespace GB

/-- Pointwise update of a byte-addressed memory, used to model the writes
performed by the stack and interrupt helpers. -/
def memWrite (m : Nat → Nat) (a v : Nat) : Nat → Nat :=
  fun x => if x = a then v else m x

/-- Register file and interrupt-control fields of class CPUZ80 together with
their member initializers (CPUZ80.h lines 90-118): all six registers start
at 0x0000, the pending flags PEI and PDI start false, and IME starts true. -/
structure CPUZ80 where
  AF : Nat := 0x0000
  BC : Nat := 0x0000
  DE : Nat := 0x0000
  HL : Nat := 0x0000
  PC : Nat := 0x0000
  SP : Nat := 0x0000
  PEI : Bool := false
  PDI : Bool := false
  IME : Bool := true

/-- State of a CPUZ80 object immediately after construction: every field
takes its member-initializer value from the header. -/
def CPUZ80.construct : CPUZ80 := {}

/-- Machine fields touched by CPUZ80.reset: the register file plus the LCD
registers that the inline LCD.reset manipulates. -/
structure BootState where
  AF : Nat
  BC : Nat
  DE : Nat
  HL : Nat
  SP : Nat
  PC : Nat
  LCDC : Nat
  STAT : Nat
  LY : Nat

/-- Translated from the inline member LCD.reset (CPUZ80.h line 225):
LY is zeroed and STAT receives `(STAT & 0xFC) | 1`, forcing its low two
bits to 01. -/
def LCD_reset (s : BootState) : BootState :=
  { s with LY := 0, STAT := (s.STAT &&& 0xFC) ||| 1 }

/-- Modelled from the spec: the body of CPUZ80.reset (declared at CPUZ80.h
line 32) is absent from the source tree.  Section 3 (Lifecycles) and
scenario 1 of section 8 give the documented post-boot values that reset
reinstates; the LCD part reuses the inline LCD.reset from the header. -/
def reset (s : BootState) : BootState :=
  LCD_reset { s with
    AF := 0x01B0, BC := 0x0013, DE := 0x00D8, HL := 0x014D,
    SP := 0xFFFE, PC := 0x0100, LCDC := 0x91 }

/-- Forcing the low two bits of a byte to 01 with `(x & 0xFC) | 1` indeed
leaves residue 1 modulo 4. -/
theorem and_FC_or_one_mod_four (x : Nat) : ((x &&& 0xFC) ||| 1) % 4 = 1 := by
  have h4 : (4 : Nat) = 2 ^ 2 := rfl
  rw [h4]
  apply Nat.eq_of_testBit_eq
  intro i
  rw [Nat.testBit_mod_two_pow, Nat.testBit_or, Nat.testBit_and]
  rcases i with _ | _ | i
  · simp [show (0xFC : Nat).testBit 0 = false from by decide]
  · simp [show (0xFC : Nat).testBit 1 = false from by decide,
      show (1 : Nat).testBit 1 = false from by decide]
  · have h1 : (1 : Nat).testBit (i + 2) = false :=
      Nat.testBit_lt_two_pow (Nat.one_lt_two_pow (by omega))
    simp [h1]

/-- Claim C10: immediately after construction of the CPU object, before
reset is ever called, all six registers AF, BC, DE, HL, PC, SP equal 0x0000
rather than the documented post-boot values, IME is true, and both pending
flags PEI and PDI are false, so interrupts are globally enabled from
construction onward. -/
theorem C10_construction_defaults :
    CPUZ80.construct.AF = 0 ∧ CPUZ80.construct.BC = 0 ∧
    CPUZ80.construct.DE = 0 ∧ CPUZ80.construct.HL = 0 ∧
    CPUZ80.construct.PC = 0 ∧ CPUZ80.construct.SP = 0 ∧
    CPUZ80.construct.IME = true ∧ CPUZ80.construct.PEI = false ∧
    CPUZ80.construct.PDI = false := by
  refine ⟨rfl, rfl, rfl, rfl, rfl, rfl, rfl, rfl, rfl⟩

/-- Claim C7: after reset, the machine holds the documented post-boot
values A=0x01, F=0xB0 (Z=1, N=0, H=1, C=1), BC=0x0013, DE=0x00D8,
HL=0x014D, SP=0xFFFE, PC=0x0100, LCDC=0x91, and the low two bits of STAT
equal 01, for every state from which reset is invoked. -/
theorem C7_reset_boot_values (s : BootState) :
    (reset s).AF / 256 = 0x01 ∧ (reset s).AF % 256 = 0xB0 ∧
    ((reset s).AF % 256).testBit 7 = true ∧
    ((reset s).AF % 256).testBit 6 = false ∧
    ((reset s).AF % 256).testBit 5 = true ∧
    ((reset s).AF % 256).testBit 4 = true ∧
    (reset s).BC = 0x0013 ∧ (reset s).DE = 0x00D8 ∧
    (reset s).HL = 0x014D ∧ (reset s).SP = 0xFFFE ∧
    (reset s).PC = 0x0100 ∧ (reset s).LCDC = 0x91 ∧
    (reset s).STAT % 4 = 1 := by
  refine ⟨?_, ?_, ?_, ?_, ?_, ?_, ?_, ?_, ?_, ?_, ?_, ?_, ?_⟩ <;>
    simp only [reset, LCD_reset] <;>
    first
      | decide
      | exact and_FC_or_one_mod_four s.STAT

/-- Flag bit values from the FLAGS enum of CPUZ80.h (lines 67-73). -/
def FLAG_Z : Nat := 1 <<< 7

/-- Subtract flag bit value (CPUZ80.h line 70). -/
def FLAG_N : Nat := 1 <<< 6

/-- Half-carry flag bit value (CPUZ80.h line 71). -/
def FLAG_H : Nat := 1 <<< 5

/-- Carry flag bit value (CPUZ80.h line 72). -/
def FLAG_C : Nat := 1 <<< 4

/-- Modelled from the spec: the flag register is rebuilt from the four flag
values Z N H C by every ALU operation (section 4.2 flag semantics); the low
nibble holds no flag, matching the FLAGS comment of CPUZ80.h lines 40-66. -/
def mkF (z n h c : Bool) : Nat :=
  (if z then FLAG_Z else 0) + (if n then FLAG_N else 0) +
  (if h then FLAG_H else 0) + (if c then FLAG_C else 0)

/-- Registers touched by the ALU helper functions of CPUZ80.h lines
325-348: the accumulator A, the 16-bit pairs HL and SP, one generic 8-bit
target register r (standing for whichever register or memory byte the
opcode addressed), and the flag register F. -/
structure ALUState where
  A : Nat
  HL : Nat
  SP : Nat
  r : Nat
  F : Nat

/-- Tags for the flag-writing ALU helper functions declared in CPUZ80.h
(CPU_ACC_ADD, CPU_ACC_SUB, CPU_ACC_AND, CPU_ACC_OR, CPU_ACC_XOR,
CPU_ACC_FLIP, CPU_8REG_INC, CPU_8REG_DEC, CPU_8REG_SWAP, CPU_HL_ADD,
CPU_SP_ADD, CPU_TEST_BIT and the rotate and shift helpers), plus the CCF
and SCF opcodes. -/
inductive ALUOp where
  | accAdd (x : Nat) : ALUOp
  | accSub (x : Nat) (compare : Bool) : ALUOp
  | accAnd (x : Nat) : ALUOp
  | accOr (x : Nat) : ALUOp
  | accXor (x : Nat) : ALUOp
  | accFlip : ALUOp
  | regInc : ALUOp
  | regDec : ALUOp
  | regSwap : ALUOp
  | hlAdd (x : Nat) : ALUOp
  | spAdd (x : Nat) : ALUOp
  | testBitOp (k : Nat) : ALUOp
  | regRl : ALUOp
  | regRlc : ALUOp
  | regRr : ALUOp
  | regRrc : ALUOp
  | regSla : ALUOp
  | regSra : ALUOp
  | regSrl : ALUOp
  | ccf : ALUOp
  | scf : ALUOp

/-- Modelled from the spec: the bodies of the ALU helpers declared at
CPUZ80.h lines 325-348 are absent from the source tree; each case follows
the exhaustive flag contract of spec section 4.2, rebuilding F from the
four flag values (flags documented as unaffected are read back out of the
old F). -/
def applyALU (op : ALUOp) (s : ALUState) : ALUState :=
  let a := s.A % 256
  let r := s.r % 256
  let oldZ := s.F.testBit 7
  let oldC := s.F.testBit 4
  match op with
  | .accAdd x =>
    let b := x % 256
    let sum := a + b
    { s with A := sum % 256,
             F := mkF (decide (sum % 256 = 0)) false
               (decide (15 < a % 16 + b % 16)) (decide (255 < sum)) }
  | .accSub x compare =>
    let b := x % 256
    let diff := (a + 256 - b) % 256
    { s with A := if compare then s.A else diff,
             F := mkF (decide (diff = 0)) true
               (decide (a % 16 < b % 16)) (decide (a < b)) }
  | .accAnd x =>
    let res := a &&& x % 256
    { s with A := res, F := mkF (decide (res = 0)) false true false }
  | .accOr x =>
    let res := a ||| x % 256
    { s with A := res, F := mkF (decide (res = 0)) false false false }
  | .accXor x =>
    let res := a ^^^ x % 256
    { s with A := res, F := mkF (decide (res = 0)) false false false }
  | .accFlip =>
    { s with A := a ^^^ 255, F := mkF oldZ true true oldC }
  | .regInc =>
    let res := (r + 1) % 256
    { s with r := res,
             F := mkF (decide (res = 0)) false (decide (r % 16 = 15)) oldC }
  | .regDec =>
    let res := (r + 255) % 256
    { s with r := res,
             F := mkF (decide (res = 0)) true (decide (r % 16 = 0)) oldC }
  | .regSwap =>
    let res := r % 16 * 16 + r / 16
    { s with r := res, F := mkF (decide (res = 0)) false false false }
  | .hlAdd x =>
    let hl := s.HL % 65536
    let w := x % 65536
    let sum := hl + w
    { s with HL := sum % 65536,
             F := mkF oldZ false (decide (4095 < hl % 4096 + w % 4096))
               (decide (65535 < sum)) }
  | .spAdd x =>
    let n := x % 256
    let sp := s.SP % 65536
    { s with SP := (sp + (if n < 128 then n else n + 65280)) % 65536,
             F := mkF false false (decide (15 < sp % 16 + n % 16))
               (decide (255 < sp % 256 + n)) }
  | .testBitOp k =>
    { s with F := mkF (!(r.testBit (k % 8))) false true oldC }
  | .regRl =>
    let res := 2 * r % 256 + if oldC then 1 else 0
    { s with r := res, F := mkF (decide (res = 0)) false false (r.testBit 7) }
  | .regRlc =>
    let res := 2 * r % 256 + if r.testBit 7 then 1 else 0
    { s with r := res, F := mkF (decide (res = 0)) false false (r.testBit 7) }
  | .regRr =>
    let res := r / 2 + if oldC then 128 else 0
    { s with r := res, F := mkF (decide (res = 0)) false false (r.testBit 0) }
  | .regRrc =>
    let res := r / 2 + if r.testBit 0 then 128 else 0
    { s with r := res, F := mkF (decide (res = 0)) false false (r.testBit 0) }
  | .regSla =>
    let res := 2 * r % 256
    { s with r := res, F := mkF (decide (res = 0)) false false (r.testBit 7) }
  | .regSra =>
    let res := r / 2 + if r.testBit 7 then 128 else 0
    { s with r := res, F := mkF (decide (res = 0)) false false (r.testBit 0) }
  | .regSrl =>
    let res := r / 2
    { s with r := res, F := mkF (decide (res = 0)) false false (r.testBit 0) }
  | .ccf =>
    { s with F := mkF oldZ false false (!oldC) }
  | .scf =>
    { s with F := mkF oldZ false false true }

/-- Modelled from the spec: every 8-bit write to F masks the low nibble to
zero (section 3: the low nibble is unreadable, always reads zero, ignored
on write; section 9: the mask must be enforced in every 8-bit write to F). -/
def writeF (v : Nat) (s : ALUState) : ALUState :=
  { s with F := v &&& 0xF0 }

/-- CPU-visible state used by the stack helpers CPU_PUSH_16, CPU_POP_16,
CPU_CALL and the return instructions: the AF pair, the program counter,
the stack pointer and a byte-addressed memory. -/
structure StackMachine where
  AF : Nat
  PC : Nat
  SP : Nat
  mem : Nat → Nat

/-- Decrement of a 16-bit register with wrap-around, as performed by dec_SP
(CPUZ80.h line 311) on an H_WORD register. -/
def dec16 (x : Nat) : Nat := (x + 65535) % 65536

/-- Increment of a 16-bit register with wrap-around, as performed by inc_SP
(CPUZ80.h line 310). -/
def inc16 (x : Nat) : Nat := (x + 1) % 65536

/-- Modelled from the spec: CPU_PUSH_16 (declared at CPUZ80.h line 350) per
section 4.2 Stack: SP -= 1, write high byte; SP -= 1, write low byte. -/
def CPU_PUSH_16 (v : Nat) (s : StackMachine) : StackMachine :=
  let sp1 := dec16 s.SP
  let m1 := memWrite s.mem sp1 (v / 256 % 256)
  let sp2 := dec16 sp1
  { s with SP := sp2, mem := memWrite m1 sp2 (v % 256) }

/-- Modelled from the spec: CPU_POP_16 (declared at CPUZ80.h line 353) per
section 4.2 Stack: read low byte, SP += 1; read high byte, SP += 1. -/
def CPU_POP_16 (s : StackMachine) : Nat × StackMachine :=
  let lo := s.mem s.SP
  let sp1 := inc16 s.SP
  let hi := s.mem sp1
  (hi * 256 + lo, { s with SP := inc16 sp1 })

/-- Modelled from the spec: CPU_CALL (declared at CPUZ80.h line 351) per
section 4.2 control flow: the operand fetch has already advanced PC past
the call instruction, so the current PC is the address of the next
instruction; CPU_CALL pushes it and jumps to the target. -/
def CPU_CALL (addr : Nat) (s : StackMachine) : StackMachine :=
  { CPU_PUSH_16 s.PC s with PC := addr % 65536 }

/-- Modelled from the spec: the RET operation (declared at CPUZ80.h line
485) pops the stack into PC (section 4.2 control flow). -/
def RET (s : StackMachine) : StackMachine :=
  let p := CPU_POP_16 s
  { p.2 with PC := p.1 }

/-- Modelled from the spec: POP AF restores F masking the low nibble to
zero (section 4.2 Stack and section 9 register-aliasing note). -/
def POP_AF (s : StackMachine) : StackMachine :=
  let p := CPU_POP_16 s
  { p.2 with AF := p.1 &&& 0xFFF0 }

/-- Modelled from the spec: PUSH AF writes F with its low nibble masked to
zero (section 4.2 Stack). -/
def PUSH_AF (s : StackMachine) : StackMachine :=
  CPU_PUSH_16 (s.AF &&& 0xFFF0) s

/-- Rebuilding F from the four flag values always leaves the low nibble
zero. -/
theorem mkF_mod_sixteen (z n h c : Bool) : mkF z n h c % 16 = 0 := by
  cases z <;> cases n <;> cases h <;> cases c <;> decide

/-- Masking with a value whose low nibble is zero leaves the low nibble
zero. -/
theorem and_mask_mod_sixteen (v m : Nat) (hm : m % 16 = 0) :
    (v &&& m) % 16 = 0 := by
  have hconv : ∀ w : Nat, w % 16 = w &&& 15 := by
    intro w
    have h := Nat.and_pow_two_sub_one_eq_mod w 4
    norm_num at h
    exact h.symm
  have hm2 : m &&& 15 = 0 := by rw [← hconv m]; exact hm
  rw [hconv, Nat.and_assoc, hm2, Nat.and_zero]

set_option maxRecDepth 4096 in
/-- Claim C6: the low nibble of register F is always zero: every ALU
operation rebuilds F with its low four bits equal to 0, every 8-bit write
to F masks the low nibble to zero, POP AF restores F with the low nibble
masked to zero, and PUSH AF writes to memory an F byte whose low nibble is
zero. -/
theorem C6_flag_low_nibble_zero (op : ALUOp) (s : ALUState) (v : Nat)
    (t : StackMachine) :
    (applyALU op s).F % 16 = 0 ∧
    (writeF v s).F % 16 = 0 ∧
    (POP_AF t).AF % 16 = 0 ∧
    (PUSH_AF t).mem (PUSH_AF t).SP % 16 = 0 := by
  refine ⟨?_, ?_, ?_, ?_⟩
  · cases op <;> simp only [applyALU] <;> exact mkF_mod_sixteen _ _ _ _
  · exact and_mask_mod_sixteen v 0xF0 (by norm_num)
  · exact and_mask_mod_sixteen _ 0xFFF0 (by norm_num)
  · simp only [PUSH_AF, CPU_PUSH_16, memWrite, eq_self_iff_true, if_true]
    rw [Nat.mod_mod_of_dvd _ (show (16 : Nat) ∣ 256 by norm_num)]
    exact and_mask_mod_sixteen _ 0xFFF0 (by norm_num)

/-- Claim C9: executing CALL addr, which pushes the address of the
instruction following the CALL (the current PC, already advanced past the
operand), and then executing RET at addr restores PC to that post-CALL
address and leaves SP equal to its value before the CALL; the CALL itself
jumps to addr. -/
theorem C9_call_ret_round_trip (s : StackMachine) (addr : Nat)
    (hPC : s.PC < 65536) (hSP : s.SP < 65536) :
    (CPU_CALL addr s).PC = addr % 65536 ∧
    (RET (CPU_CALL addr s)).PC = s.PC ∧
    (RET (CPU_CALL addr s)).SP = s.SP := by
  have hne : dec16 (dec16 s.SP) ≠ dec16 s.SP := by
    simp only [dec16]
    omega
  have hinc : inc16 (dec16 (dec16 s.SP)) = dec16 s.SP := by
    simp only [dec16, inc16]
    omega
  have hinc2 : inc16 (inc16 (dec16 (dec16 s.SP))) = s.SP := by
    simp only [dec16, inc16]
    omega
  refine ⟨rfl, ?_, ?_⟩
  · simp only [RET, CPU_CALL, CPU_PUSH_16, CPU_POP_16, memWrite,
      eq_self_iff_true, if_true, hinc, hne, if_neg hne]
    rw [if_neg (Ne.symm hne)]
    omega
  · simp only [RET, CPU_CALL, CPU_PUSH_16, CPU_POP_16]
    exact hinc2

/-- Witness for claim C9 at a concrete machine: PC = 0x0203, SP = 0xFFFE,
target 0x1234, zeroed memory. -/
theorem C9_call_ret_round_trip_witness :
    (CPU_CALL 0x1234 ⟨0, 0x0203, 0xFFFE, fun _ => 0⟩).PC = 0x1234 ∧
    (RET (CPU_CALL 0x1234 ⟨0, 0x0203, 0xFFFE, fun _ => 0⟩)).PC = 0x0203 ∧
    (RET (CPU_CALL 0x1234 ⟨0, 0x0203, 0xFFFE, fun _ => 0⟩)).SP = 0xFFFE := by
  have h := C9_call_ret_round_trip ⟨0, 0x0203, 0xFFFE, fun _ => 0⟩ 0x1234
    (by norm_num) (by norm_num)
  simpa using h

/-- Machine state touched by CPU_PERFORM_INT (declared at CPUZ80.h line
354): program counter, stack pointer, master enable, the IE byte at FFFF,
the IF byte at FF0F, memory, and the cycle charge of the dispatch. -/
structure IntMachine where
  PC : Nat
  SP : Nat
  IME : Bool
  IE : Nat
  IF : Nat
  mem : Nat → Nat
  cycles : Nat

/-- Pending interrupt mask per spec section 4.3: `IE & IF & 0x1F`. -/
def pending (s : IntMachine) : Nat := s.IE &&& s.IF &&& 0x1F

/-- Modelled from the spec: priority selection over the five interrupt
bits, lowest set bit first (section 4.3 and the priority comment at
CPUZ80.h lines 103-114). -/
def lowestBit (p : Nat) : Nat :=
  if p &&& 1 ≠ 0 then 0
  else if p &&& 2 ≠ 0 then 1
  else if p &&& 4 ≠ 0 then 2
  else if p &&& 8 ≠ 0 then 3
  else 4

/-- Modelled from the spec: CPU_PERFORM_INT (declared at CPUZ80.h line 354)
per section 4.3: with IME set and a nonzero pending mask, the lowest set
bit k is selected, IF bit k is cleared, IME is cleared, PC is pushed, PC
jumps to `0x40 + 8*k` and 20 cycles are charged; otherwise nothing
happens. -/
def CPU_PERFORM_INT (s : IntMachine) : IntMachine :=
  if s.IME = true ∧ pending s ≠ 0 then
    let k := lowestBit (pending s)
    let sp1 := dec16 s.SP
    let m1 := memWrite s.mem sp1 (s.PC / 256 % 256)
    let sp2 := dec16 sp1
    { s with IME := false,
             IF := s.IF &&& (255 ^^^ (1 <<< k)),
             SP := sp2,
             mem := memWrite m1 sp2 (s.PC % 256),
             PC := 0x40 + 8 * k,
             cycles := 20 }
  else s

/-- On the five-bit pending masks, lowestBit returns a set bit below which
every bit is clear. -/
theorem lowestBit_is_lowest :
    ∀ p, p < 32 → p ≠ 0 → p.testBit (lowestBit p) = true ∧
      ∀ j, j < lowestBit p → p.testBit j = false := by decide

/-- The mask `255 ^^^ (1 <<< k)` keeps every bit below 8 except bit k. -/
theorem clear_mask_testBit :
    ∀ k, k < 5 → ∀ j, j < 8 →
      (255 ^^^ (1 <<< k)).testBit j = decide (j ≠ k) := by decide

/-- Lowest-bit selection never exceeds bit 4. -/
theorem lowestBit_lt_five : ∀ p, p < 32 → lowestBit p < 5 := by decide

/-- Claim C1: when the CPU is between instructions with
`pending = IE & IF & 0x1F` nonzero and IME set, servicing selects the
lowest set bit k of pending, clears IF bit k (keeping the other bits),
clears IME, pushes the current PC onto the stack, sets PC to `0x40 + 8*k`
and charges exactly 20 cycles; when IME is clear or pending is zero, no
interrupt is serviced and the state is untouched. -/
theorem C1_interrupt_service (s : IntMachine) (j : Nat) :
    (s.IME = true → pending s ≠ 0 →
      (pending s).testBit (lowestBit (pending s)) = true ∧
      (j < lowestBit (pending s) → (pending s).testBit j = false) ∧
      (CPU_PERFORM_INT s).PC = 0x40 + 8 * lowestBit (pending s) ∧
      (CPU_PERFORM_INT s).IME = false ∧
      (CPU_PERFORM_INT s).IF.testBit (lowestBit (pending s)) = false ∧
      (j < 8 → j ≠ lowestBit (pending s) →
        (CPU_PERFORM_INT s).IF.testBit j = s.IF.testBit j) ∧
      (CPU_PERFORM_INT s).mem (dec16 s.SP) = s.PC / 256 % 256 ∧
      (CPU_PERFORM_INT s).mem (dec16 (dec16 s.SP)) = s.PC % 256 ∧
      (CPU_PERFORM_INT s).SP = dec16 (dec16 s.SP) ∧
      (CPU_PERFORM_INT s).cycles = 20) ∧
    (s.IME = false ∨ pending s = 0 → CPU_PERFORM_INT s = s) := by
  have hplt : pending s < 32 :=
    lt_of_le_of_lt Nat.and_le_right (by norm_num)
  constructor
  · intro hime hpend
    have hcond : s.IME = true ∧ pending s ≠ 0 := ⟨hime, hpend⟩
    have hspec := lowestBit_is_lowest (pending s) hplt hpend
    have hk5 := lowestBit_lt_five (pending s) hplt
    have hne : dec16 s.SP ≠ dec16 (dec16 s.SP) := by
      simp only [dec16]; omega
    simp only [CPU_PERFORM_INT, if_pos hcond]
    refine ⟨hspec.1, fun hj => hspec.2 j hj, ?_, ?_, ?_, ?_, ?_, ?_, ?_, ?_⟩
    · trivial
    · trivial
    · rw [Nat.testBit_and,
        clear_mask_testBit _ hk5 _ (by omega), decide_eq_false (by simp),
        Bool.and_false]
    · intro hj8 hjk
      rw [Nat.testBit_and, clear_mask_testBit _ hk5 _ hj8,
        decide_eq_true hjk, Bool.and_true]
    · simp only [memWrite, hne, eq_self_iff_true, if_true, if_false]
    · simp only [memWrite, eq_self_iff_true, if_true]
    · trivial
    · trivial
  · intro h
    have hcond : ¬(s.IME = true ∧ pending s ≠ 0) := by
      rcases h with h | h
      · intro hc; rw [h] at hc; exact Bool.false_ne_true hc.1
      · intro hc; exact hc.2 h
    simp only [CPU_PERFORM_INT, if_neg hcond]

/-- Witness for claim C1: a serviced dispatch at IE=0x0C, IF=0x14
(pending = 4, lowest bit k = 2, vector 0x50) with j = 1, and an untouched
machine when IME is clear. -/
theorem C1_interrupt_service_witness :
    (CPU_PERFORM_INT ⟨0x1234, 0xFFFE, true, 0x0C, 0x14, fun _ => 0, 0⟩).PC =
        0x50 ∧
    (CPU_PERFORM_INT ⟨0x1234, 0xFFFE, true, 0x0C, 0x14, fun _ => 0, 0⟩).IME =
        false ∧
    (CPU_PERFORM_INT ⟨0x1234, 0xFFFE, true, 0x0C, 0x14, fun _ => 0, 0⟩).cycles
        = 20 ∧
    CPU_PERFORM_INT ⟨0x1234, 0xFFFE, false, 0x0C, 0x14, fun _ => 0, 0⟩ =
      ⟨0x1234, 0xFFFE, false, 0x0C, 0x14, fun _ => 0, 0⟩ := by
  have h1 := (C1_interrupt_service ⟨0x1234, 0xFFFE, true, 0x0C, 0x14,
    fun _ => 0, 0⟩ 1).1 rfl (by decide)
  have h2 := (C1_interrupt_service ⟨0x1234, 0xFFFE, false, 0x0C, 0x14,
    fun _ => 0, 0⟩ 1).2 (Or.inl rfl)
  refine ⟨?_, h1.2.2.2.1, h1.2.2.2.2.2.2.2.2.2, h2⟩
  have h3 := h1.2.2.1
  rw [show lowestBit (pending ⟨0x1234, 0xFFFE, true, 0x0C, 0x14,
    fun _ => 0, 0⟩) = 2 from by decide] at h3
  simpa using h3

/-- Minimal instruction alphabet for the IME-latency model: EI, DI, and a
representative ordinary instruction. -/
inductive Instr where
  | ei : Instr
  | di : Instr
  | nop : Instr
deriving DecidableEq

/-- Interrupt-enable state for the EI/DI latency model: IME with the two
pending fields PEI and PDI of CPUZ80.h lines 116-118, the IE and IF bytes,
and a counter of serviced dispatches. -/
structure IMEMachine where
  IME : Bool
  PEI : Bool
  PDI : Bool
  IE : Nat
  IF : Nat
  serviced : Nat

/-- Pending mask of the IME-latency model, as in spec section 4.3. -/
def pendingI (s : IMEMachine) : Nat := s.IE &&& s.IF &&& 0x1F

/-- Modelled from the spec: the interrupt check at the start of a clock
tick (section 4.3): with IME set and pending nonzero the lowest pending
bit is cleared, IME is cleared and a dispatch is counted; otherwise the
state is untouched. -/
def intCheck (s : IMEMachine) : IMEMachine :=
  if s.IME = true ∧ pendingI s ≠ 0 then
    { s with IME := false,
             IF := s.IF &&& (255 ^^^ (1 <<< lowestBit (pendingI s))),
             serviced := s.serviced + 1 }
  else s

/-- Modelled from the spec: the execute phase of one instruction for the
IME-latency model (section 4.2 Misc): EI sets the pending-enable flag PEI;
DI clears IME immediately and clears the pending enable (section 9: DI
clears both immediately; the pending-disable field PDI is retained but
never drives behaviour); an ordinary instruction changes nothing. -/
def execInstr (i : Instr) (s : IMEMachine) : IMEMachine :=
  match i with
  | .ei => { s with PEI := true }
  | .di => { s with IME := false, PEI := false }
  | .nop => s

/-- Modelled from the spec: CPU_PENDING_IME (declared at CPUZ80.h line
356) resolves the pending enable at the end of an instruction; per section
4.3 the promotion never happens before the interrupt check of the
instruction after EI, so the tick that executed EI itself does not
promote. -/
def CPU_PENDING_IME (i : Instr) (s : IMEMachine) : IMEMachine :=
  if s.PEI = true ∧ i ≠ Instr.ei then { s with IME := true, PEI := false }
  else s

/-- One clock tick of the IME-latency model in the order fixed by spec
section 5: interrupt check, then instruction execution, then pending-IME
resolution. -/
def tick (i : Instr) (s : IMEMachine) : IMEMachine :=
  CPU_PENDING_IME i (execInstr i (intCheck s))

/-- Claim C2: EI does not enable interrupts during the immediately
following instruction: after the EI tick IME is still clear and only PEI
is set, the interrupt check of the next instruction services nothing even
with a pending interrupt, and IME becomes true only once that next
instruction completes; DI clears IME immediately during its execute phase,
with no one-instruction delay, and never touches the pending-disable
field PDI. -/
theorem C2_ei_latency_di_immediate (s t : IMEMachine) (h : s.IME = false) :
    (tick .ei s).IME = false ∧
    (tick .ei s).PEI = true ∧
    intCheck (tick .ei s) = tick .ei s ∧
    (intCheck (tick .ei s)).serviced = s.serviced ∧
    (tick .nop (tick .ei s)).IME = true ∧
    (execInstr .di t).IME = false ∧
    (execInstr .di t).PDI = t.PDI ∧
    (tick .di t).IME = false ∧
    (tick .di t).PDI = t.PDI := by
  have hs : tick .ei s = { s with PEI := true } := by
    have hc1 : ¬(s.IME = true ∧ pendingI s ≠ 0) := by
      intro hc; rw [h] at hc; exact Bool.false_ne_true hc.1
    simp [tick, intCheck, execInstr, CPU_PENDING_IME, hc1]
  have hs2 : intCheck (tick .ei s) = tick .ei s := by
    rw [hs]
    have hc2 : ¬(({ s with PEI := true } : IMEMachine).IME = true ∧
        pendingI { s with PEI := true } ≠ 0) := by
      intro hc; rw [h] at hc; exact Bool.false_ne_true hc.1
    simp [intCheck, hc2]
  refine ⟨by rw [hs]; exact h, by rw [hs], hs2, by rw [hs2, hs], ?_,
    rfl, rfl, ?_, ?_⟩
  · show (CPU_PENDING_IME .nop (execInstr .nop (intCheck (tick .ei s)))).IME
        = true
    rw [hs2]
    have he : execInstr .nop (tick .ei s) = tick .ei s := rfl
    rw [he, hs]
    simp [CPU_PENDING_IME]
  · show (CPU_PENDING_IME .di (execInstr .di (intCheck t))).IME = false
    simp [CPU_PENDING_IME, execInstr]
  · show (CPU_PENDING_IME .di (execInstr .di (intCheck t))).PDI = t.PDI
    simp [CPU_PENDING_IME, execInstr, intCheck]
    split <;> rfl

/-- Witness for claim C2 at a machine with IME clear and a pending VBlank
interrupt (IE = IF = 1), and an arbitrary concrete machine for the DI
conjuncts. -/
theorem C2_ei_latency_di_immediate_witness :
    (tick .ei ⟨false, false, false, 1, 1, 0⟩).IME = false ∧
    (tick .ei ⟨false, false, false, 1, 1, 0⟩).PEI = true ∧
    intCheck (tick .ei ⟨false, false, false, 1, 1, 0⟩) =
      tick .ei ⟨false, false, false, 1, 1, 0⟩ ∧
    (intCheck (tick .ei ⟨false, false, false, 1, 1, 0⟩)).serviced = 0 ∧
    (tick .nop (tick .ei ⟨false, false, false, 1, 1, 0⟩)).IME = true ∧
    (execInstr .di ⟨true, false, false, 1, 1, 0⟩).IME = false ∧
    (execInstr .di ⟨true, false, false, 1, 1, 0⟩).PDI = false ∧
    (tick .di ⟨true, false, false, 1, 1, 0⟩).IME = false ∧
    (tick .di ⟨true, false, false, 1, 1, 0⟩).PDI = false :=
  C2_ei_latency_di_immediate ⟨false, false, false, 1, 1, 0⟩
    ⟨true, false, false, 1, 1, 0⟩ rfl

/-- Timer state: the TIMA, TMA and TAC bytes, the IF byte, the overflow
latch of the clock struct (CPUZ80.h line 155) and the timer cycle counter
(CPUZ80.h line 250). -/
structure TimerMachine where
  TIMA : Nat
  TMA : Nat
  TAC : Nat
  IF : Nat
  overflow : Bool
  tima_count : Nat

/-- Period table of spec section 4.4: `period = [1024, 16, 64, 256]`
indexed by TAC bits 1-0 (also the frequency comment at CPUZ80.h lines
135-139). -/
def timerPeriod (sel : Nat) : Nat :=
  if sel = 0 then 1024 else if sel = 1 then 16 else if sel = 2 then 64
  else 256

/-- Modelled from the spec: update_timers / CPU_TIMER_CHECK (declared at
CPUZ80.h lines 306 and 358-359) per section 4.4: the counter accumulates
the elapsed cycles; while TAC bit 2 is set, a pending overflow from the
previous step first reloads TIMA from TMA, requests the Timer IRQ (IF bit
2) and clears the latch, and then a counter at or past the selected period
ticks TIMA once, latching overflow when TIMA wraps FF to 00; with TAC bit
2 clear the timer is inert. -/
def update_timers (c : Nat) (s : TimerMachine) : TimerMachine :=
  let s0 := { s with tima_count := s.tima_count + c }
  if s0.TAC &&& 4 ≠ 0 then
    let s1 :=
      if s0.overflow = true then
        { s0 with TIMA := s0.TMA % 256, IF := s0.IF ||| 4, overflow := false }
      else s0
    if timerPeriod (s1.TAC &&& 3) ≤ s1.tima_count then
      { s1 with TIMA := (s1.TIMA % 256 + 1) % 256,
                overflow := decide ((s1.TIMA % 256 + 1) % 256 = 0),
                tima_count := s1.tima_count - timerPeriod (s1.TAC &&& 3) }
    else s1
  else s0

/-- Claim C3: with TAC bit 2 set, TIMA ticks exactly when the timer cycle
counter reaches `period[TAC & 3]` (the counter keeps the excess), a tick
that wraps TIMA from 0xFF to 0x00 latches the overflow flag without
touching IF, and on the next timer step TIMA is reloaded with TMA, IF bit
2 is set and the latch is cleared; with TAC bit 2 clear TIMA, IF and the
latch never change. -/
theorem C3_timer_tick_overflow_reload (s : TimerMachine) (c : Nat) :
    (s.TAC &&& 4 ≠ 0 → s.overflow = false →
      timerPeriod (s.TAC &&& 3) ≤ s.tima_count + c →
      (update_timers c s).TIMA = (s.TIMA % 256 + 1) % 256 ∧
      (update_timers c s).tima_count =
        s.tima_count + c - timerPeriod (s.TAC &&& 3) ∧
      (update_timers c s).IF = s.IF ∧
      ((update_timers c s).overflow = true ↔ s.TIMA % 256 = 255)) ∧
    (s.TAC &&& 4 ≠ 0 → s.overflow = true →
      s.tima_count + c < timerPeriod (s.TAC &&& 3) →
      (update_timers c s).TIMA = s.TMA % 256 ∧
      (update_timers c s).IF = s.IF ||| 4 ∧
      (update_timers c s).overflow = false) ∧
    (s.TAC &&& 4 ≠ 0 → s.overflow = false →
      s.tima_count + c < timerPeriod (s.TAC &&& 3) →
      (update_timers c s).TIMA = s.TIMA ∧
      (update_timers c s).IF = s.IF ∧
      (update_timers c s).overflow = false) ∧
    (s.TAC &&& 4 = 0 →
      (update_timers c s).TIMA = s.TIMA ∧
      (update_timers c s).IF = s.IF ∧
      (update_timers c s).overflow = s.overflow) := by
  refine ⟨?_, ?_, ?_, ?_⟩
  · intro hen hov hper
    simp only [update_timers, hen, hov, if_pos hen, if_neg, if_pos hper]
    simp only [Bool.false_eq_true, if_false, if_pos hper]
    refine ⟨by trivial, by trivial, by trivial, ?_⟩
    simp only [decide_eq_true_eq]
    omega
  · intro hen hov hper
    have hper2 : ¬(timerPeriod (s.TAC &&& 3) ≤ s.tima_count + c) := by omega
    simp only [update_timers, hen, hov, if_pos hen, if_true, if_neg hper2]
    exact ⟨by trivial, by trivial, by trivial⟩
  · intro hen hov hper
    have hper2 : ¬(timerPeriod (s.TAC &&& 3) ≤ s.tima_count + c) := by omega
    simp only [update_timers, hen, hov, Bool.false_eq_true, if_false,
      if_pos hen, if_neg hper2]
    exact ⟨by trivial, by trivial, by trivial⟩
  · intro hdis
    have hc : ¬(s.TAC &&& 4 ≠ 0) := by omega
    simp only [update_timers, if_neg hc]
    exact ⟨by trivial, by trivial, by trivial⟩

/-- Witness for claim C3 at the scenario of spec section 8: TAC = 0x05
(enabled, 16-cycle period), TIMA = 0xFF, TMA = 0x23, advancing 16 cycles
wraps TIMA to 0 and latches overflow without touching IF; a subsequent
1-cycle step reloads TIMA = 0x23 and sets IF bit 2; a disabled timer is
inert. -/
theorem C3_timer_tick_overflow_reload_witness :
    ((update_timers 16 ⟨0xFF, 0x23, 5, 0, false, 0⟩).TIMA = 0 ∧
      (update_timers 16 ⟨0xFF, 0x23, 5, 0, false, 0⟩).tima_count = 0 ∧
      (update_timers 16 ⟨0xFF, 0x23, 5, 0, false, 0⟩).IF = 0 ∧
      ((update_timers 16 ⟨0xFF, 0x23, 5, 0, false, 0⟩).overflow = true ↔
        (255 : Nat) % 256 = 255)) ∧
    ((update_timers 1 ⟨0, 0x23, 5, 0, true, 0⟩).TIMA = 0x23 ∧
      (update_timers 1 ⟨0, 0x23, 5, 0, true, 0⟩).IF = 4 ∧
      (update_timers 1 ⟨0, 0x23, 5, 0, true, 0⟩).overflow = false) ∧
    ((update_timers 16 ⟨7, 0x23, 0, 9, false, 0⟩).TIMA = 7 ∧
      (update_timers 16 ⟨7, 0x23, 0, 9, false, 0⟩).IF = 9 ∧
      (update_timers 16 ⟨7, 0x23, 0, 9, false, 0⟩).overflow = false) := by
  refine ⟨?_, ?_, ?_⟩
  · have h := (C3_timer_tick_overflow_reload ⟨0xFF, 0x23, 5, 0, false, 0⟩
      16).1 (by decide) rfl (by decide)
    simpa using h
  · have h := (C3_timer_tick_overflow_reload ⟨0, 0x23, 5, 0, true, 0⟩
      1).2.1 (by decide) rfl (by decide)
    simpa using h
  · have h := (C3_timer_tick_overflow_reload ⟨7, 0x23, 0, 9, false, 0⟩
      16).2.2.2 (by decide)
    simpa using h

/-- Divider state: the DIV byte at FF04 and its cycle counter
(CPUZ80.h lines 160 and 251). -/
structure DividerMachine where
  DIV : Nat
  divider_count : Nat

/-- Modelled from the spec: CPU_DIVIDER_INCREMENT (declared at CPUZ80.h
line 362) per section 4.4, at the granularity of the per-cycle counters
inc of CPUZ80.h lines 254-260: the counter gains one cycle, and once it
reaches 256 the DIV byte increments with 8-bit wrap and the counter keeps
the excess. -/
def CPU_DIVIDER_INCREMENT (s : DividerMachine) : DividerMachine :=
  let cnt := s.divider_count + 1
  if 256 ≤ cnt then { DIV := (s.DIV + 1) % 256, divider_count := cnt - 256 }
  else { s with divider_count := cnt }

/-- Iterated per-cycle divider update: n elapsed CPU cycles. -/
def runDivider : Nat → DividerMachine → DividerMachine
  | 0, s => s
  | n + 1, s => runDivider n (CPU_DIVIDER_INCREMENT s)

/-- Bus state for the I/O write and read rules: the DIV and LY bytes plus
the rest of memory. -/
structure Bus where
  DIV : Nat
  LY : Nat
  mem : Nat → Nat

/-- Modelled from the spec: the memory-bus write rules of section 4.1 that
the claims exercise: a write to FF04 resets DIV to 0 regardless of the
value written; other addresses store the byte. -/
def busWrite (s : Bus) (addr v : Nat) : Bus :=
  if addr = 0xFF04 then { s with DIV := 0 }
  else { s with mem := memWrite s.mem addr (v % 256) }

/-- Modelled from the spec: the memory-bus read of section 4.1 through
read_ptr (declared at CPUZ80.h lines 283-284): reading FF44 returns the
true LY; reads have no side effect.  The header comment at CPUZ80.h line
172 claiming that read operations set LY to zero is declared a source
error by spec section 9 and is deliberately not implemented. -/
def busRead (s : Bus) (addr : Nat) : Nat × Bus :=
  if addr = 0xFF44 then (s.LY, s)
  else if addr = 0xFF04 then (s.DIV, s)
  else (s.mem addr % 256, s)

/-- Claim C8: DIV increments by exactly one for every 256 elapsed CPU
cycles, wrapping modulo 256 (starting from a counter below 256, after n
cycles DIV has advanced by `(count + n) / 256` and the counter holds
`(count + n) % 256`), and any write to FF04, whatever the value, sets DIV
to 0. -/
theorem C8_divider_increment_and_reset (n d cnt : Nat) (b : Bus) (v : Nat)
    (hcnt : cnt < 256) (hd : d < 256) :
    runDivider n ⟨d, cnt⟩ = ⟨(d + (cnt + n) / 256) % 256, (cnt + n) % 256⟩ ∧
    (busWrite b 0xFF04 v).DIV = 0 := by
  constructor
  · induction n generalizing d cnt hd with
    | zero =>
      simp only [runDivider]
      refine congrArg₂ DividerMachine.mk ?_ ?_ <;> omega
    | succ m ih =>
      simp only [runDivider, CPU_DIVIDER_INCREMENT]
      by_cases h : 256 ≤ cnt + 1
      · rw [if_pos h]
        have h255 : cnt = 255 := by omega
        subst h255
        rw [ih ((d + 1) % 256) 0 (by omega) (by omega)]
        refine congrArg₂ DividerMachine.mk ?_ ?_ <;> omega
      · rw [if_neg h]
        rw [ih d (cnt + 1) (by omega) hd]
        refine congrArg₂ DividerMachine.mk ?_ ?_ <;> omega
  · simp [busWrite]

/-- Witness for claim C8: 600 cycles from a fresh counter advance DIV by
2 with 88 cycles left over, and a write of 0xAB to FF04 zeroes DIV. -/
theorem C8_divider_increment_and_reset_witness :
    runDivider 600 ⟨0, 0⟩ = ⟨2, 88⟩ ∧
    (busWrite ⟨0x5C, 3, fun _ => 0⟩ 0xFF04 0xAB).DIV = 0 := by
  have h := C8_divider_increment_and_reset 600 0 0 ⟨0x5C, 3, fun _ => 0⟩
    0xAB (by norm_num) (by norm_num)
  simpa using h

/-- Claim C4: reading address FF44 returns the current true LY value and
leaves the whole machine state unchanged; in particular the read never
sets LY to zero. -/
theorem C4_read_LY_pure (s : Bus) :
    (busRead s 0xFF44).1 = s.LY ∧
    (busRead s 0xFF44).2 = s ∧
    (busRead s 0xFF44).2.LY = s.LY := by
  refine ⟨rfl, rfl, rfl⟩

/-- LCD state driving the LY/VBlank behaviour: the LY byte, the IF byte,
the per-scanline cycle counter (CPUZ80.h line 252) and the LCDC byte. -/
structure LCDMachine where
  LY : Nat
  IF : Nat
  scanline_count : Nat
  LCDC : Nat

/-- Modelled from the spec: one CPU cycle of update_LCD (declared at
CPUZ80.h line 307) per section 4.5 steps 1-2: with LCDC bit 7 clear, LY
and the counter are forced to zero; otherwise the counter advances, and on
reaching 456 it rolls over, LY steps to `(LY+1) % 154`, and the transition
to LY = 144 requests the VBlank interrupt (IF bit 0).  The Bool result
records whether this cycle requested VBlank.  The STAT-interrupt sources,
the coincidence flag and the mode field of section 4.5 steps 3-4 are not
represented: they never touch LY, IF bit 0 or the scanline counter. -/
def update_LCD (s : LCDMachine) : LCDMachine × Bool :=
  if s.LCDC &&& 128 = 0 then ({ s with LY := 0, scanline_count := 0 }, false)
  else
    let cnt := s.scanline_count + 1
    if 456 ≤ cnt then
      let ly := (s.LY + 1) % 154
      ({ s with LY := ly, scanline_count := cnt - 456,
                IF := if ly = 144 then s.IF ||| 1 else s.IF },
       decide (ly = 144))
    else ({ s with scanline_count := cnt }, false)

/-- Iterated per-cycle LCD update over n CPU cycles, also counting how many
of those cycles requested the VBlank interrupt. -/
def runLCD : Nat → LCDMachine → LCDMachine × Nat
  | 0, s => (s, 0)
  | n + 1, s =>
    let p := update_LCD s
    let q := runLCD n p.1
    (q.1, (if p.2 = true then 1 else 0) + q.2)

/-- Splitting a run of the LCD into two consecutive runs. -/
theorem runLCD_add (m n : Nat) (s : LCDMachine) :
    runLCD (m + n) s =
      ((runLCD n (runLCD m s).1).1,
        (runLCD m s).2 + (runLCD n (runLCD m s).1).2) := by
  induction m generalizing s with
  | zero => simp [runLCD]
  | succ k ih =>
    have he : k + 1 + n = (k + n) + 1 := by omega
    rw [he]
    simp only [runLCD]
    rw [ih]
    refine congrArg₂ Prod.mk rfl ?_
    omega

/-- Within a scanline (no rollover), the enabled LCD only advances its
cycle counter and requests nothing. -/
theorem runLCD_intra (k : Nat) :
    ∀ s : LCDMachine, s.LCDC &&& 128 ≠ 0 → s.scanline_count + k < 456 →
      runLCD k s = ({ s with scanline_count := s.scanline_count + k }, 0) := by
  induction k with
  | zero => intro s _ _; simp [runLCD]
  | succ m ih =>
    intro s hen hlt
    have h1 : ¬(456 ≤ s.scanline_count + 1) := by omega
    simp only [runLCD, update_LCD, if_neg hen, if_neg h1]
    rw [ih { s with scanline_count := s.scanline_count + 1 } hen (by simp; omega)]
    have h2 : s.scanline_count + 1 + m = s.scanline_count + (m + 1) := by omega
    simp [h2]

/-- One full scanline of the enabled LCD from a line boundary: LY steps
cyclically and VBlank is requested exactly on the transition to 144. -/
theorem runLCD_line (ly ifr lcdc : Nat) (hen : lcdc &&& 128 ≠ 0) :
    runLCD 456 (⟨ly, ifr, 0, lcdc⟩ : LCDMachine) =
      (⟨(ly + 1) % 154,
        if (ly + 1) % 154 = 144 then ifr ||| 1 else ifr, 0, lcdc⟩,
       if (ly + 1) % 154 = 144 then 1 else 0) := by
  have h456 : (456 : Nat) = 455 + 1 := by norm_num
  rw [h456, runLCD_add 455 1 ⟨ly, ifr, 0, lcdc⟩,
    runLCD_intra 455 ⟨ly, ifr, 0, lcdc⟩ hen (by norm_num)]
  simp only [runLCD, update_LCD, if_neg hen]
  by_cases hv : (ly + 1) % 154 = 144
  · simp [hv]
  · simp [hv]

/-- Accumulated effect of j complete scanlines of the enabled LCD starting
from LY = 0: LY is j mod 154 and VBlank has been requested once exactly
when line 144 has been reached. -/
theorem runLCD_lines (ifr lcdc : Nat) (hen : lcdc &&& 128 ≠ 0) :
    ∀ j, j ≤ 154 →
      runLCD (456 * j) (⟨0, ifr, 0, lcdc⟩ : LCDMachine) =
        (⟨j % 154, if 144 ≤ j then ifr ||| 1 else ifr, 0, lcdc⟩,
         if 144 ≤ j then 1 else 0) := by
  intro j
  induction j with
  | zero =>
    intro _
    simp [runLCD]
  | succ m ih =>
    intro hm
    have hm153 : m ≤ 153 := by omega
    have hmul : 456 * (m + 1) = 456 * m + 456 := by ring
    rw [hmul, runLCD_add, ih (by omega), runLCD_line _ _ _ hen]
    have hmm : m % 154 = m := Nat.mod_eq_of_lt (by omega)
    rw [hmm]
    by_cases hc : m + 1 = 144
    · have h1 : (m + 1) % 154 = 144 := by omega
      have h2 : ¬(144 ≤ m) := by omega
      have h3 : 144 ≤ m + 1 := by omega
      have h4 : (m + 1) % 154 = (m + 1) % 154 := rfl
      simp only [h1, if_pos h3, if_neg h2, if_pos rfl]
      simp
    · have h2 : ¬((m + 1) % 154 = 144) := by omega
      have h3 : (144 ≤ m) ↔ (144 ≤ m + 1) := by omega
      by_cases hge : 144 ≤ m
      · simp only [if_neg h2, if_pos hge, if_pos (h3.mp hge)]
      · have hge2 : ¬(144 ≤ m + 1) := fun h => hge (h3.mpr h)
        simp only [if_neg h2, if_neg hge, if_neg hge2]

/-- Claim C5: with the LCD enabled, from a frame start LY advances
cyclically through 0..153 and back to 0, one increment every 456 CPU
cycles (after j complete scanlines LY is j mod 154), the frame period is
exactly 70224 cycles (154 scanlines, the state returning to the frame
start), and the VBlank interrupt (IF bit 0) is requested exactly once per
frame, on the transition to LY = 144: over the first n cycles the number
of VBlank requests is 1 if the 144th scanline boundary has passed and 0
before. -/
theorem C5_frame_period_vblank_once (ifr lcdc j n : Nat)
    (hen : lcdc &&& 128 ≠ 0) (hj : j ≤ 154) (hn : n ≤ 70224) :
    runLCD (456 * j) (⟨0, ifr, 0, lcdc⟩ : LCDMachine) =
      (⟨j % 154, if 144 ≤ j then ifr ||| 1 else ifr, 0, lcdc⟩,
       if 144 ≤ j then 1 else 0) ∧
    (runLCD n (⟨0, ifr, 0, lcdc⟩ : LCDMachine)).2 =
      (if 456 * 144 ≤ n then 1 else 0) ∧
    runLCD 70224 (⟨0, ifr, 0, lcdc⟩ : LCDMachine) =
      (⟨0, ifr ||| 1, 0, lcdc⟩, 1) := by
  refine ⟨runLCD_lines ifr lcdc hen j hj, ?_, ?_⟩
  · have hq : n / 456 ≤ 154 := by omega
    have hr : n % 456 < 456 := Nat.mod_lt _ (by norm_num)
    have hsplit : n = 456 * (n / 456) + n % 456 := (Nat.div_add_mod n 456).symm
    rw [hsplit, runLCD_add, runLCD_lines ifr lcdc hen (n / 456) hq,
      runLCD_intra (n % 456) _ hen (by simp; omega)]
    simp only []
    by_cases hge : 144 ≤ n / 456
    · rw [if_pos hge, if_pos (by omega)]
    · rw [if_neg hge, if_neg (by omega)]
  · have h70224 : (70224 : Nat) = 456 * 154 := by norm_num
    rw [h70224, runLCD_lines ifr lcdc hen 154 (by norm_num)]
    norm_num

/-- Witness for claim C5 at IF = 0, LCDC = 0x91 (LCD enabled), j = 154
complete scanlines and n = 456*144 cycles. -/
theorem C5_frame_period_vblank_once_witness :
    runLCD (456 * 154) (⟨0, 0, 0, 0x91⟩ : LCDMachine) =
      (⟨154 % 154, if 144 ≤ 154 then 0 ||| 1 else 0, 0, 0x91⟩,
       if 144 ≤ 154 then 1 else 0) ∧
    (runLCD 65664 (⟨0, 0, 0, 0x91⟩ : LCDMachine)).2 =
      (if 456 * 144 ≤ 65664 then 1 else 0) ∧
    runLCD 70224 (⟨0, 0, 0, 0x91⟩ : LCDMachine) =
      (⟨0, 0 ||| 1, 0, 0x91⟩, 1) :=
  C5_frame_period_vblank_once 0 0x91 154 65664 (by decide) (by norm_num)
    (by norm_num)

end GB
